import Mathlib

/-!
Shallow embedding of the PlannerPro offline-capable storage layer.

The embedded code comes from two source files:
* `DatabaseStorageManager` (facade over a remote API with a localStorage
  fallback, a pending-operation queue and a drain routine), and
* `StorageManager` (IndexedDB/localStorage store; we embed the
  localStorage fallback paths, which are the ones the claims cite),
plus `StatisticsManager.getCompletionStats` / `getTasksForPeriod`.

Conventions of the embedding:
* `localStorage` slots are explicit fields of the state; `getItem`
  returning `null` is `Option.none`.
* JS request `options` objects are `ReqOptions`; an absent `method`
  field is `none` (the `fetch` default is GET).
* Clocks (`Date.now()`, `new Date().toISOString()`) are state fields
  `now` / `nowISO`, so time is an explicit input.
* The outcome of each remote `fetch` is an explicit boolean input
  (`remoteOk`, or a list `outcomes` for the drain loop, one entry per
  attempted request).
* Calendar dates are abstract day numbers (`Nat`); comparison of ISO
  date strings in the source is order-isomorphic to comparison of day
  numbers.
* Exceptions are modelled with `Except`: a `try`-block body is an
  `Except`-valued function and the surrounding `catch` turns its
  `.error` into the logged default result.
-/

namespace PlannerPro

/-- Task record as persisted in the `plannerpro_tasks` slot.  Records are
opaque JSON in the source; we keep the fields the claims mention. -/
structure Task where
  id : Option String
  title : String
  category : String
  amount : Int
  status : String
  createdAt : Option String
  updatedAt : Option String
  deriving Repr, DecidableEq

/-- The `options` object passed to `makeApiRequest` / `fetch`.  `method`
is `none` when the call site passes no `method` key (fetch then performs
a GET). -/
structure ReqOptions where
  method : Option String
  body : Option String
  deriving Repr, DecidableEq

/-- Entry of the pending-operation queue, as built by
`addPendingOperation`: `{ endpoint, options, timestamp: Date.now() }`. -/
structure PendingOp where
  endpoint : String
  options : ReqOptions
  timestamp : Nat
  deriving Repr, DecidableEq

/-- Statistic record as stored by `saveStatisticToLocalStorage`. -/
structure StatRecord where
  date : String
  statType : String
  data : String
  deriving Repr, DecidableEq

/-- State of a `DatabaseStorageManager` instance together with its
localStorage slots.  `pendingOps` is the in-memory
`this.pendingOperations` array; `slotPendingOps` is the persisted
`plannerpro_pending_ops` slot. -/
structure DBState where
  isOnline : Bool
  pendingOps : List PendingOp
  slotPendingOps : Option (List PendingOp)
  slotTasks : Option (List Task)
  slotSettings : Option (List (String × String))
  slotStats : Option (List StatRecord)
  now : Nat
  nowISO : String
  deriving Repr, DecidableEq

/-- HTTP method actually used by `fetch` for the given options: the
explicit `method` field, or GET when the field is absent. -/
def effectiveMethod (o : ReqOptions) : String :=
  o.method.getD "GET"

/-- Model of `JSON.stringify(task)` used for request bodies; the body is
only ever treated as an opaque string by the embedded code. -/
def encodeTask (t : Task) : String :=
  t.title ++ "|" ++ t.category ++ "|" ++ toString t.amount ++ "|" ++ t.id.getD ""

/-- `getTasksFromLocalStorage` on a well-formed slot: parse the stored
array, or `[]` when the slot is absent (the malformed-JSON branch is
modelled separately in the `LocalRead` namespace). -/
def getTasksFromLocalStorage (s : DBState) : List Task :=
  s.slotTasks.getD []

/-- `getSettingsFromLocalStorage` on a well-formed slot. -/
def getSettingsFromLocalStorage (s : DBState) : List (String × String) :=
  s.slotSettings.getD []

/-- `getStatisticsFromLocalStorage` on a well-formed slot. -/
def getStatisticsFromLocalStorage (s : DBState) : List StatRecord :=
  s.slotStats.getD []

/-- `addPendingOperation(endpoint, options)`: push
`{endpoint, options, timestamp: Date.now()}` onto the in-memory array
and persist the full array to the `plannerpro_pending_ops` slot. -/
def addPendingOperation (s : DBState) (endpoint : String) (options : ReqOptions) : DBState :=
  let q := s.pendingOps ++ [{ endpoint := endpoint, options := options, timestamp := s.now }]
  { s with pendingOps := q, slotPendingOps := some q }

/-- `makeApiRequest(endpoint, options)`.  `remoteOk` is the outcome of
the underlying `fetch` (false covers non-ok status and transport
failure, both of which throw).  On failure, when `this.isOnline` and
`options.method !== 'GET'`, the operation is enqueued; the error is
rethrown, which we model by returning `false`. -/
def makeApiRequest (s : DBState) (endpoint : String) (options : ReqOptions)
    (remoteOk : Bool) : DBState × Bool :=
  if remoteOk then (s, true)
  else
    let s' :=
      if s.isOnline && options.method != some "GET" then
        addPendingOperation s endpoint options
      else s
    (s', false)

/-- `saveTaskToLocalStorage(task)`: with an id, replace the first entry
with that id (refreshing `updatedAt`) or append; without an id, append a
copy carrying a fresh `temp_` id and fresh timestamps.  Returns the
stored new task in the no-id case and the caller's record otherwise,
exactly as the source's `return task` does. -/
def saveTaskToLocalStorage (s : DBState) (task : Task) : DBState × Task :=
  let tasks := getTasksFromLocalStorage s
  match task.id with
  | some _ =>
    let stored := { task with updatedAt := some s.nowISO }
    let tasks' :=
      match tasks.findIdx? (fun t => t.id == task.id) with
      | some i => tasks.set i stored
      | none => tasks ++ [stored]
    ({ s with slotTasks := some tasks' }, task)
  | none =>
    let newTask := { task with
      id := some ("temp_" ++ toString s.now),
      createdAt := some s.nowISO,
      updatedAt := some s.nowISO }
    ({ s with slotTasks := some (tasks ++ [newTask]) }, newTask)

/-- `deleteTaskFromLocalStorage(id)`: keep the entries whose id differs
from the argument and persist the filtered array. -/
def deleteTaskFromLocalStorage (s : DBState) (id : String) : DBState :=
  { s with
    slotTasks := some ((getTasksFromLocalStorage s).filter (fun t => t.id != some id)) }

/-- Result of the `saveTask` facade call: the parsed remote response, or
the record returned by the localStorage fallback. -/
inductive SaveResult where
  | fromRemote
  | fromLocal (t : Task)
  deriving Repr, DecidableEq

/-- Request options built by `saveTask`: `method: task.id ? 'PUT' :
'POST'`, `body: JSON.stringify(task)`. -/
def taskSaveOptions (t : Task) : ReqOptions :=
  { method := some (if t.id.isSome then "PUT" else "POST"),
    body := some (encodeTask t) }

/-- `saveTask(task)` facade: when online, PUT (existing id) or POST (no
id) to `/tasks` through `makeApiRequest`; the catch branch and the
offline branch both fall back to `saveTaskToLocalStorage`. -/
def saveTask (s : DBState) (task : Task) (remoteOk : Bool) : DBState × SaveResult :=
  if s.isOnline then
    let r := makeApiRequest s "/tasks" (taskSaveOptions task) remoteOk
    if r.2 then (r.1, .fromRemote)
    else
      let l := saveTaskToLocalStorage r.1 task
      (l.1, .fromLocal l.2)
  else
    let l := saveTaskToLocalStorage s task
    (l.1, .fromLocal l.2)

/-- `getAllTasks()` facade: when online, GET `/tasks` (note: the call
site passes no options, so `options.method` is absent); the catch branch
and the offline branch read the localStorage fallback.  `remoteTasks` is
the task list a successful remote call would return. -/
def getAllTasksFacade (s : DBState) (remoteOk : Bool) (remoteTasks : List Task) :
    DBState × List Task :=
  if s.isOnline then
    let r := makeApiRequest s "/tasks" { method := none, body := none } remoteOk
    if r.2 then (r.1, remoteTasks)
    else (r.1, getTasksFromLocalStorage r.1)
  else (s, getTasksFromLocalStorage s)

/-- `deleteTask(id)` facade: when online, DELETE `/tasks/:id`; the catch
branch and the offline branch delete from the localStorage fallback. -/
def deleteTask (s : DBState) (id : String) (remoteOk : Bool) : DBState :=
  if s.isOnline then
    let r := makeApiRequest s ("/tasks/" ++ id)
      { method := some "DELETE", body := none } remoteOk
    if r.2 then r.1 else deleteTaskFromLocalStorage r.1 id
  else deleteTaskFromLocalStorage s id

/-- Condition under which a failed replay inside the drain loop
re-enqueues the operation: `makeApiRequest` adds to the queue when
`this.isOnline && options.method !== 'GET'`. -/
def requeueOnFailure (isOnline : Bool) (op : PendingOp) : Bool :=
  isOnline && op.options.method != some "GET"

/-- The `for (const operation of this.pendingOperations)` loop of
`syncPendingOperations`.  JavaScript array iteration reads the array
index by index and sees elements appended during the loop, so a failed
replay that re-enqueues (via `makeApiRequest` calling
`addPendingOperation`) extends the same array being iterated.  One entry
of `outcomes` is consumed per attempted replay; `none` means the
supplied outcome list was too short to drive the loop to completion.
Returns the final array object and the trace of attempted operations in
order. -/
def drainLoop (isOnline : Bool) (now : Nat) (outcomes : List Bool)
    (queue : List PendingOp) (i : Nat) (trace : List PendingOp) :
    Option (List PendingOp × List PendingOp) :=
  match outcomes with
  | [] => if queue.length ≤ i then some (queue, trace) else none
  | ok :: rest =>
    if h : i < queue.length then
      let op := queue.get ⟨i, h⟩
      let trace' := trace ++ [op]
      if ok then drainLoop isOnline now rest queue (i + 1) trace'
      else
        let queue' :=
          if requeueOnFailure isOnline op then
            queue ++ [{ endpoint := op.endpoint, options := op.options, timestamp := now }]
          else queue
        drainLoop isOnline now rest queue' (i + 1) trace'
    else some (queue, trace)

/-- `syncPendingOperations()`: reload the queue from the persisted slot
when present, return early when empty, otherwise run the replay loop
(each replay through `makeApiRequest`, failures logged) and then
unconditionally clear the in-memory queue and remove the persisted
slot.  Returns the final state and the ordered trace of replay
attempts. -/
def syncPendingOperations (s : DBState) (outcomes : List Bool) :
    Option (DBState × List PendingOp) :=
  let q0 :=
    match s.slotPendingOps with
    | some stored => stored
    | none => s.pendingOps
  if q0.isEmpty then some ({ s with pendingOps := q0 }, [])
  else
    match drainLoop s.isOnline s.now outcomes q0 0 [] with
    | none => none
    | some r => some ({ s with pendingOps := [], slotPendingOps := none }, r.2)

/-- Document produced by `exportDataFromLocalStorage`. -/
structure ExportDoc where
  version : String
  exportDate : String
  tasks : List Task
  settings : List (String × String)
  statistics : List StatRecord
  deriving Repr, DecidableEq

/-- `exportDataFromLocalStorage()`: a single document with `version`,
`exportDate`, and the three collections read from localStorage. -/
def exportDataFromLocalStorage (s : DBState) : ExportDoc :=
  { version := "1.0"
    exportDate := s.nowISO
    tasks := getTasksFromLocalStorage s
    settings := getSettingsFromLocalStorage s
    statistics := getStatisticsFromLocalStorage s }

/-- Argument of `importDataToLocalStorage`: each field may be absent
(the source guards each write with `if (data.tasks)` and so on; a
present array or object is truthy). -/
structure ImportDoc where
  tasks : Option (List Task)
  settings : Option (List (String × String))
  statistics : Option (List StatRecord)
  deriving Repr, DecidableEq

/-- A freshly exported document, viewed as import input: all three
collections are present. -/
def ExportDoc.toImport (d : ExportDoc) : ImportDoc :=
  { tasks := some d.tasks, settings := some d.settings, statistics := some d.statistics }

/-- `importDataToLocalStorage(data)`: overwrite each slot for which the
document carries a collection. -/
def importDataToLocalStorage (s : DBState) (d : ImportDoc) : DBState :=
  let s1 :=
    match d.tasks with
    | some ts => { s with slotTasks := some ts }
    | none => s
  let s2 :=
    match d.settings with
    | some kv => { s1 with slotSettings := some kv }
    | none => s1
  match d.statistics with
  | some st => { s2 with slotStats := some st }
  | none => s2

/-- `clearLocalStorageData()`: remove every `plannerpro_*` key. -/
def clearLocalStorageData (s : DBState) : DBState :=
  { s with
    slotTasks := none
    slotSettings := none
    slotStats := none
    slotPendingOps := none }

namespace Stats

/-- Task as seen by `StatisticsManager`: status, optional due date and
creation date.  Dates are abstract day numbers; the source compares ISO
date strings (for `dueDate < today`) and `Date` values (for the period
filter), both of which order exactly as the day numbers do. -/
structure StatTask where
  status : String
  dueDate : Option Nat
  createdAt : Nat
  deriving Repr, DecidableEq

/-- Start day of the `'week'` period: `startDate.setDate(now.getDate() - 7)`. -/
def weekStart (nowDay : Nat) : Nat := nowDay - 7

/-- `getTasksForPeriod()`: keep the tasks whose `createdAt` is at or
after the period start (`taskDate >= startDate`). -/
def getTasksForPeriod (startDay : Nat) (tasks : List StatTask) : List StatTask :=
  tasks.filter (fun t => startDay ≤ t.createdAt)

/-- Counters accumulated by `getCompletionStats`. -/
structure CompletionStats where
  completed : Nat
  pending : Nat
  overdue : Nat
  total : Nat
  deriving Repr, DecidableEq

/-- One iteration of the `periodTasks.forEach` classifier: completed
status counts as completed; otherwise a past due date counts as overdue
(`task.dueDate && task.dueDate < today`); otherwise pending. -/
def classifyStep (today : Nat) (acc : CompletionStats) (t : StatTask) : CompletionStats :=
  if t.status == "completed" then { acc with completed := acc.completed + 1 }
  else
    match t.dueDate with
    | some d =>
      if d < today then { acc with overdue := acc.overdue + 1 }
      else { acc with pending := acc.pending + 1 }
    | none => { acc with pending := acc.pending + 1 }

/-- `getCompletionStats()`: classify every task of the current period,
starting from zero counters with `total` set to the period size. -/
def getCompletionStats (today startDay : Nat) (tasks : List StatTask) : CompletionStats :=
  let periodTasks := getTasksForPeriod startDay tasks
  periodTasks.foldl (classifyStep today)
    { completed := 0, pending := 0, overdue := 0, total := periodTasks.length }

end Stats

namespace LocalRead

/-- Raw content of a localStorage slot, before deserialization:
`empty` is `getItem` returning `null`, `valid` a string that parses to
the expected shape, `corrupt` a string on which `JSON.parse` throws. -/
inductive Slot (α : Type) where
  | empty
  | valid (a : α)
  | corrupt
  deriving Repr, DecidableEq

/-- `stored ? JSON.parse(stored) : dflt` — the deserialization step that
can throw, shared by every read method. -/
def parseOr {α : Type} (slot : Slot α) (dflt : α) : Except String α :=
  match slot with
  | .empty => .ok dflt
  | .valid a => .ok a
  | .corrupt => .error "SyntaxError: Unexpected token in JSON"

/-- Try-block body of `DatabaseStorageManager.getTasksFromLocalStorage`. -/
def getTasksBody (slot : Slot (List Task)) : Except String (List Task) :=
  parseOr slot []

/-- `DatabaseStorageManager.getTasksFromLocalStorage` with its catch
branch: a parse error is logged and `[]` returned. -/
def getTasksX (slot : Slot (List Task)) : Except String (List Task) :=
  match getTasksBody slot with
  | .ok ts => .ok ts
  | .error _ => .ok []

/-- `DatabaseStorageManager.getSettingsFromLocalStorage` with its catch
branch (default `{}`). -/
def getSettingsX (slot : Slot (List (String × String))) :
    Except String (List (String × String)) :=
  match parseOr slot [] with
  | .ok kv => .ok kv
  | .error _ => .ok []

/-- `DatabaseStorageManager.getSettingFromLocalStorage(key, default)`:
reads the settings object through `getSettingsFromLocalStorage` (which
catches) and falls back to the default when the key is absent. -/
def getSettingX (slot : Slot (List (String × String))) (key dflt : String) :
    Except String String :=
  match getSettingsX slot with
  | .ok kv =>
    match kv.lookup key with
    | some v => .ok v
    | none => .ok dflt
  | .error e => .error e

/-- `DatabaseStorageManager.getStatisticsFromLocalStorage` with its
catch branch. -/
def getStatisticsX (slot : Slot (List StatRecord)) : Except String (List StatRecord) :=
  match parseOr slot [] with
  | .ok st => .ok st
  | .error _ => .ok []

/-- Try-block body of `StorageManager.getAllTasks` on the localStorage
fallback path: `tasks ? JSON.parse(tasks) : []`. -/
def smGetAllTasksBody (slot : Slot (List Task)) : Except String (List Task) :=
  parseOr slot []

/-- `StorageManager.getAllTasks` with its catch branch (`return []`). -/
def smGetAllTasksX (slot : Slot (List Task)) : Except String (List Task) :=
  match smGetAllTasksBody slot with
  | .ok ts => .ok ts
  | .error _ => .ok []

/-- `StorageManager.getTask(id)` on the fallback path: find over
`getAllTasks`; its catch branch returns `null`. -/
def smGetTaskX (slot : Slot (List Task)) (id : String) : Except String (Option Task) :=
  match smGetAllTasksBody slot with
  | .ok ts => .ok (ts.find? (fun t => t.id == some id))
  | .error _ => .ok none

/-- `StorageManager.getSetting(key, default)` on the fallback path:
`setting ? JSON.parse(setting) : defaultValue`, catch returns the
default.  The slot holds the serialized value under the per-key
`plannerpro_settings_<key>` entry. -/
def smGetSettingX (slot : Slot String) (dflt : String) : Except String String :=
  match parseOr slot dflt with
  | .ok v => .ok v
  | .error _ => .ok dflt

/-- `StorageManager.getStatistics` on the fallback path with its catch
branch. -/
def smGetStatisticsX (slot : Slot (List StatRecord)) : Except String (List StatRecord) :=
  match parseOr slot [] with
  | .ok st => .ok st
  | .error _ => .ok []

end LocalRead

namespace SM

/-- `StorageManager` state on the localStorage fallback path
(IndexedDB unavailable): the `plannerpro_tasks` slot. -/
structure SMState where
  slotTasks : LocalRead.Slot (List Task)
  deriving Repr, DecidableEq

/-- `StorageManager.getAllTasks` as a total function (its catch turns
any parse error into `[]`). -/
def getAllTasks (s : SMState) : List Task :=
  match LocalRead.smGetAllTasksX s.slotTasks with
  | .ok ts => ts
  | .error _ => []

/-- `StorageManager.deleteTask(id)` on the fallback path: read all
tasks, keep those with a different id, persist, return `true`. -/
def deleteTask (s : SMState) (id : String) : SMState × Bool :=
  let tasks := getAllTasks s
  ({ slotTasks := .valid (tasks.filter (fun t => t.id != some id)) }, true)

end SM

/-! Concrete states and records used by the scenario theorems. -/

/-- A clean manager state with the connectivity monitor reporting
online and every localStorage slot absent. -/
def onlineState : DBState :=
  { isOnline := true
    pendingOps := []
    slotPendingOps := none
    slotTasks := none
    slotSettings := none
    slotStats := none
    now := 5
    nowISO := "2025-01-01T00:00:00.000Z" }

/-- The same clean state with the monitor reporting offline. -/
def offlineState : DBState :=
  { onlineState with isOnline := false }

/-- A queued POST operation (first in insertion order). -/
def opA : PendingOp :=
  { endpoint := "/tasks"
    options := { method := some "POST", body := some "bodyA" }
    timestamp := 0 }

/-- A queued PUT operation (second in insertion order). -/
def opB : PendingOp :=
  { endpoint := "/tasks"
    options := { method := some "PUT", body := some "bodyB" }
    timestamp := 1 }

/-- An offline state whose persisted pending-operation slot holds
`[opA, opB]`. -/
def drainStartState : DBState :=
  { offlineState with slotPendingOps := some [opA, opB] }

/-- A concrete task record carrying an id. -/
def taskT : Task :=
  { id := some "t1"
    title := "Buy milk"
    category := "personal"
    amount := 3
    status := "pending"
    createdAt := none
    updatedAt := none }

/-- The same record without an id (a locally created task). -/
def taskNoId : Task :=
  { taskT with id := none }

/-! Theorems for the frozen claims. -/

/-- Claim C2 (code evaluated at the failing input): the pending queue is
claimed to contain only mutating operations, but when `getAllTasks`
runs while `isOnline` is true and the remote request fails,
`makeApiRequest` enqueues the operation because its guard
`options.method !== 'GET'` is satisfied by an absent `method` field —
even though `fetch` without a `method` performs a GET.  The resulting
queue entry is a read operation, in memory and in the persisted slot. -/
theorem getAllTasks_failure_enqueues_read :
    (getAllTasksFacade onlineState false []).1.pendingOps =
      [{ endpoint := "/tasks", options := { method := none, body := none }, timestamp := 5 }] ∧
    (getAllTasksFacade onlineState false []).1.slotPendingOps =
      some [{ endpoint := "/tasks", options := { method := none, body := none }, timestamp := 5 }] ∧
    effectiveMethod { method := none, body := none } = "GET" := by
  refine ⟨rfl, rfl, rfl⟩

/-- Claim C7: with three tasks created within the current week, due
today (pending), yesterday (pending) and next week (completed),
`getCompletionStats` over the week period reports exactly 1 completed,
1 pending and 1 overdue task.  Day 100 is today; the week period starts
at day 93. -/
theorem completionStats_week_scenario :
    Stats.getCompletionStats 100 (Stats.weekStart 100)
      [{ status := "pending", dueDate := some 100, createdAt := 100 },
       { status := "pending", dueDate := some 99, createdAt := 99 },
       { status := "completed", dueDate := some 107, createdAt := 100 }] =
      { completed := 1, pending := 1, overdue := 1, total := 3 } := by
  decide

/-- Claim C1, counterexample: with the persisted queue `[opA, opB]` and
the replay of `opA` failing, the drain does not stop — the trace shows
`opB` replayed after the failed `opA` — and afterwards the queue is
cleared entirely (in memory and in the persisted slot), so neither the
failed entry nor the later one is preserved. -/
theorem sync_replays_later_op_and_drops_failed_op :
    syncPendingOperations drainStartState [false, true] =
      some ({ drainStartState with pendingOps := [], slotPendingOps := none },
        [opA, opB]) := by
  decide

/-- Claim C3, counterexample: calling `saveTask` while the monitor
reports offline stores the task in the localStorage fallback but
appends nothing to the pending-operation queue — the operation will
never be replayed by the reconciliation engine. -/
theorem saveTask_offline_not_queued :
    (saveTask offlineState taskT true).1.pendingOps = [] ∧
    (saveTask offlineState taskT true).1.slotPendingOps = none ∧
    (saveTask offlineState taskT true).1.slotTasks =
      some [{ taskT with updatedAt := some offlineState.nowISO }] := by
  refine ⟨rfl, rfl, rfl⟩

/-- Claim C8: `addPendingOperation` appends the new operation after all
existing entries, without reordering or removing any of them, and
immediately persists the full queue, so the persisted slot equals the
in-memory queue after every enqueue. -/
theorem addPendingOperation_appends_and_persists
    (s : DBState) (endpoint : String) (options : ReqOptions) :
    (addPendingOperation s endpoint options).pendingOps =
      s.pendingOps ++ [{ endpoint := endpoint, options := options, timestamp := s.now }] ∧
    (addPendingOperation s endpoint options).slotPendingOps =
      some ((addPendingOperation s endpoint options).pendingOps) := by
  exact ⟨rfl, rfl⟩

/-- Claim C5: `exportData` (localStorage path) produces a single
document with `version`, `exportDate` and the three collections, and
importing that document into a cleared store reproduces the task,
settings and statistics collections exactly — in particular the lists
of task titles, categories and amounts are unchanged (here even the ids
coincide, which the claim permits). -/
theorem export_import_roundtrip (s : DBState) :
    (exportDataFromLocalStorage s).version = "1.0" ∧
    (exportDataFromLocalStorage s).tasks = getTasksFromLocalStorage s ∧
    getTasksFromLocalStorage
        (importDataToLocalStorage (clearLocalStorageData s)
          (exportDataFromLocalStorage s).toImport) =
      getTasksFromLocalStorage s ∧
    (getTasksFromLocalStorage
        (importDataToLocalStorage (clearLocalStorageData s)
          (exportDataFromLocalStorage s).toImport)).map Task.title =
      (getTasksFromLocalStorage s).map Task.title ∧
    (getTasksFromLocalStorage
        (importDataToLocalStorage (clearLocalStorageData s)
          (exportDataFromLocalStorage s).toImport)).map Task.category =
      (getTasksFromLocalStorage s).map Task.category ∧
    (getTasksFromLocalStorage
        (importDataToLocalStorage (clearLocalStorageData s)
          (exportDataFromLocalStorage s).toImport)).map Task.amount =
      (getTasksFromLocalStorage s).map Task.amount ∧
    getSettingsFromLocalStorage
        (importDataToLocalStorage (clearLocalStorageData s)
          (exportDataFromLocalStorage s).toImport) =
      getSettingsFromLocalStorage s ∧
    getStatisticsFromLocalStorage
        (importDataToLocalStorage (clearLocalStorageData s)
          (exportDataFromLocalStorage s).toImport) =
      getStatisticsFromLocalStorage s := by
  refine ⟨rfl, rfl, rfl, rfl, rfl, rfl, rfl, rfl⟩

/-- Helper: during a drain pass with `isOnline` false the re-enqueue
condition never fires, so the loop walks the queue unchanged, records
every remaining entry in the trace in order, and ends when the outcomes
run out exactly at the end of the queue. -/
theorem drainLoop_offline (now : Nat) :
    ∀ (outcomes : List Bool) (queue : List PendingOp) (i : Nat) (trace : List PendingOp),
      outcomes.length + i = queue.length →
      drainLoop false now outcomes queue i trace = some (queue, trace ++ queue.drop i) := by
  intro outcomes
  induction outcomes with
  | nil =>
    intro queue i trace h
    have hi : i = queue.length := by
      simp only [List.length_nil, Nat.zero_add] at h
      exact h
    subst hi
    simp [drainLoop, List.drop_length]
  | cons ok rest ih =>
    intro queue i trace h
    have hi : i < queue.length := by
      simp only [List.length_cons] at h
      omega
    have hdrop : queue.drop i = queue.get ⟨i, hi⟩ :: queue.drop (i + 1) := by
      simp only [List.get_eq_getElem]
      exact List.drop_eq_getElem_cons hi
    have hrec : rest.length + (i + 1) = queue.length := by
      simp only [List.length_cons] at h
      omega
    have hih := ih queue (i + 1) (trace ++ [queue.get ⟨i, hi⟩]) hrec
    cases ok with
    | true =>
      rw [show drainLoop false now (true :: rest) queue i trace =
            drainLoop false now rest queue (i + 1) (trace ++ [queue.get ⟨i, hi⟩]) from by
        simp [drainLoop, dif_pos hi]]
      rw [hih, List.append_assoc, List.singleton_append, ← hdrop]
    | false =>
      rw [show drainLoop false now (false :: rest) queue i trace =
            drainLoop false now rest queue (i + 1) (trace ++ [queue.get ⟨i, hi⟩]) from by
        simp [drainLoop, dif_pos hi, requeueOnFailure]]
      rw [hih, List.append_assoc, List.singleton_append, ← hdrop]

/-- Claim C1, amended: `syncPendingOperations` replays the persisted
queue through the Remote Client in insertion order, but a failed replay
does not stop the pass — every entry is still attempted — and after the
pass the queue is cleared entirely, in memory and in the persisted
slot, whether or not replays failed.  (Stated for a drain with
`isOnline` false, where the failure branch of `makeApiRequest` does not
re-append the operation to the array being iterated; the trace is the
full queue in order for any pattern of failures.) -/
theorem sync_replays_in_order_and_always_clears
    (s : DBState) (q : List PendingOp) (outcomes : List Bool)
    (hoff : s.isOnline = false) (hq : s.slotPendingOps = some q)
    (hne : q ≠ []) (hlen : outcomes.length = q.length) :
    syncPendingOperations s outcomes =
      some ({ s with pendingOps := [], slotPendingOps := none }, q) := by
  obtain ⟨a, q', rfl⟩ := List.exists_cons_of_ne_nil hne
  have hdrain := drainLoop_offline s.now outcomes (a :: q') 0 [] (by omega)
  unfold syncPendingOperations
  rw [hq, hoff]
  simp only [List.isEmpty_cons, Bool.false_eq_true, reduceIte]
  rw [hdrain]
  simp

/-- Witness for the amended Claim C1 at a concrete input: queue
`[opA, opB]`, both replays failing; every entry is attempted and the
queue ends empty. -/
theorem sync_replays_in_order_and_always_clears_witness :
    syncPendingOperations drainStartState [false, false] =
      some ({ drainStartState with pendingOps := [], slotPendingOps := none },
        [opA, opB]) := by
  exact sync_replays_in_order_and_always_clears drainStartState [opA, opB]
    [false, false] rfl rfl (by decide) rfl

/-- Helper: `saveTaskToLocalStorage` only rewrites the tasks slot; the
queue fields, connectivity flag and clocks are untouched. -/
theorem saveTaskToLocalStorage_touches_only_tasks (s : DBState) (t : Task) :
    (saveTaskToLocalStorage s t).1.pendingOps = s.pendingOps ∧
    (saveTaskToLocalStorage s t).1.slotPendingOps = s.slotPendingOps ∧
    (saveTaskToLocalStorage s t).1.isOnline = s.isOnline := by
  cases ht : t.id <;> simp [saveTaskToLocalStorage, ht]

/-- Helper: the localStorage fallback write always leaves a record
carrying the caller's title in the persisted task list (either the
fresh `temp_` record, the replaced entry, or the appended entry). -/
theorem saveTaskToLocalStorage_stores_title (s : DBState) (t : Task) :
    ∃ u ∈ (saveTaskToLocalStorage s t).1.slotTasks.getD [], u.title = t.title := by
  cases ht : t.id with
  | none =>
    refine ⟨(saveTaskToLocalStorage s t).2, ?_, ?_⟩
    · simp [saveTaskToLocalStorage, ht]
    · simp [saveTaskToLocalStorage, ht]
  | some i =>
    cases hidx : (getTasksFromLocalStorage s).findIdx? (fun u => u.id == t.id) with
    | none =>
      rw [ht] at hidx
      refine ⟨{ t with updatedAt := some s.nowISO }, ?_, rfl⟩
      simp [saveTaskToLocalStorage, ht, hidx]
    | some j =>
      have hj : j < (getTasksFromLocalStorage s).length :=
        (List.findIdx?_eq_some_iff_findIdx_eq.mp hidx).1
      rw [ht] at hidx
      refine ⟨{ t with updatedAt := some s.nowISO }, ?_, rfl⟩
      simp only [saveTaskToLocalStorage, ht, hidx, Option.getD_some]
      exact List.mem_set _ j hj _

/-- Helper: the method `saveTask` sends is PUT or POST, never GET, so
the enqueue guard of `makeApiRequest` is satisfied for it. -/
theorem taskSaveOptions_method_not_get (t : Task) :
    ((taskSaveOptions t).method != some "GET") = true := by
  cases h : t.id.isSome <;> simp [taskSaveOptions, h]

/-- Claim C3, amended: when `saveTask` runs while the monitor reports
online and the remote call fails, the task is written to the
localStorage fallback AND the operation is appended to the pending
queue (by `makeApiRequest`); but when the monitor reports offline, the
task is written to the localStorage fallback only — nothing is queued,
neither in memory nor in the persisted slot. -/
theorem saveTask_failure_routing (s : DBState) (t : Task) :
    (s.isOnline = false →
      ∀ remoteOk,
        (saveTask s t remoteOk).1.pendingOps = s.pendingOps ∧
        (saveTask s t remoteOk).1.slotPendingOps = s.slotPendingOps ∧
        ∃ u ∈ (saveTask s t remoteOk).1.slotTasks.getD [], u.title = t.title) ∧
    (s.isOnline = true →
      (saveTask s t false).1.pendingOps =
        s.pendingOps ++
          [{ endpoint := "/tasks", options := taskSaveOptions t, timestamp := s.now }] ∧
      ∃ u ∈ (saveTask s t false).1.slotTasks.getD [], u.title = t.title) := by
  constructor
  · intro hoff remoteOk
    have hs : saveTask s t remoteOk =
        ((saveTaskToLocalStorage s t).1, .fromLocal (saveTaskToLocalStorage s t).2) := by
      simp [saveTask, hoff]
    rw [hs]
    exact ⟨(saveTaskToLocalStorage_touches_only_tasks s t).1,
      (saveTaskToLocalStorage_touches_only_tasks s t).2.1,
      saveTaskToLocalStorage_stores_title s t⟩
  · intro hon
    have hmk : makeApiRequest s "/tasks" (taskSaveOptions t) false =
        (addPendingOperation s "/tasks" (taskSaveOptions t), false) := by
      simp [makeApiRequest, hon, taskSaveOptions_method_not_get]
    have hs : saveTask s t false =
        ((saveTaskToLocalStorage (addPendingOperation s "/tasks" (taskSaveOptions t)) t).1,
          .fromLocal
            (saveTaskToLocalStorage (addPendingOperation s "/tasks" (taskSaveOptions t)) t).2) := by
      simp [saveTask, hon, hmk]
    rw [hs]
    refine ⟨?_, saveTaskToLocalStorage_stores_title _ t⟩
    rw [(saveTaskToLocalStorage_touches_only_tasks _ t).1]
    rfl

/-- Witness for the amended Claim C3 at a concrete input: an online
save of `taskT` whose remote call fails is both queued and written to
the tasks slot. -/
theorem saveTask_failure_routing_witness :
    (saveTask onlineState taskT false).1.pendingOps =
      onlineState.pendingOps ++
        [{ endpoint := "/tasks", options := taskSaveOptions taskT,
           timestamp := onlineState.now }] ∧
    ∃ u ∈ (saveTask onlineState taskT false).1.slotTasks.getD [],
      u.title = taskT.title := by
  exact (saveTask_failure_routing onlineState taskT).2 rfl

/-- Claim C9: when `saveTask` is called while `isOnline` is true and
the remote request fails, the write is recorded twice — the remote
operation is appended to the pending queue (and persisted there) by
`makeApiRequest`, AND the task record is written to the localStorage
fallback by the catch branch — so a later successful drain re-applies
remotely an operation whose record already exists locally. -/
theorem saveTask_online_failure_double_records (s : DBState) (t : Task)
    (hon : s.isOnline = true) :
    (saveTask s t false).1.pendingOps =
      s.pendingOps ++
        [{ endpoint := "/tasks", options := taskSaveOptions t, timestamp := s.now }] ∧
    (saveTask s t false).1.slotPendingOps =
      some (s.pendingOps ++
        [{ endpoint := "/tasks", options := taskSaveOptions t, timestamp := s.now }]) ∧
    ∃ u ∈ (saveTask s t false).1.slotTasks.getD [], u.title = t.title := by
  have hmk : makeApiRequest s "/tasks" (taskSaveOptions t) false =
      (addPendingOperation s "/tasks" (taskSaveOptions t), false) := by
    simp [makeApiRequest, hon, taskSaveOptions_method_not_get]
  have hs : saveTask s t false =
      ((saveTaskToLocalStorage (addPendingOperation s "/tasks" (taskSaveOptions t)) t).1,
        .fromLocal
          (saveTaskToLocalStorage (addPendingOperation s "/tasks" (taskSaveOptions t)) t).2) := by
    simp [saveTask, hon, hmk]
  rw [hs]
  refine ⟨?_, ?_, saveTaskToLocalStorage_stores_title _ t⟩
  · rw [(saveTaskToLocalStorage_touches_only_tasks _ t).1]
    rfl
  · rw [(saveTaskToLocalStorage_touches_only_tasks _ t).2.1]
    rfl

/-- Witness for Claim C9 at a concrete input. -/
theorem saveTask_online_failure_double_records_witness :
    (saveTask onlineState taskT false).1.slotPendingOps =
      some (onlineState.pendingOps ++
        [{ endpoint := "/tasks", options := taskSaveOptions taskT,
           timestamp := onlineState.now }]) ∧
    ∃ u ∈ (saveTask onlineState taskT false).1.slotTasks.getD [],
      u.title = taskT.title := by
  have h := saveTask_online_failure_double_records onlineState taskT rfl
  exact ⟨h.2.1, h.2.2⟩

/-- Helper: filtering a list a second time with the same predicate
changes nothing. -/
theorem filter_idem {α : Type} (p : α → Bool) (l : List α) :
    (l.filter p).filter p = l.filter p :=
  List.filter_eq_self.mpr (fun _ ha => (List.mem_filter.mp ha).2)

/-- Claim C6: delete is idempotent on both managers' localStorage
paths.  For `StorageManager.deleteTask`, the second call returns `true`
(no error) and leaves the state unchanged; for the
`DatabaseStorageManager` facade with the monitor offline, the second
call leaves the state unchanged; in both cases no record with the
deleted id remains in the collection.  (Both embedded paths are total:
the source catches every backend failure, so neither call can throw.) -/
theorem deleteTask_idempotent (s : SM.SMState) (d : DBState) (id : String)
    (hoff : d.isOnline = false) :
    ((SM.deleteTask (SM.deleteTask s id).1 id).2 = true ∧
      (SM.deleteTask (SM.deleteTask s id).1 id).1 = (SM.deleteTask s id).1 ∧
      ∀ t ∈ SM.getAllTasks (SM.deleteTask (SM.deleteTask s id).1 id).1,
        t.id ≠ some id) ∧
    (deleteTask (deleteTask d id true) id true = deleteTask d id true ∧
      ∀ t ∈ getTasksFromLocalStorage (deleteTask (deleteTask d id true) id true),
        t.id ≠ some id) := by
  have hbne : ∀ t : Task, (t.id != some id) = true → t.id ≠ some id := by
    intro t h
    exact bne_iff_ne.mp h
  constructor
  · refine ⟨rfl, ?_, ?_⟩
    · simp only [SM.deleteTask, SM.getAllTasks, LocalRead.smGetAllTasksX,
        LocalRead.smGetAllTasksBody, LocalRead.parseOr]
      rw [filter_idem]
    · intro t ht
      simp only [SM.deleteTask, SM.getAllTasks, LocalRead.smGetAllTasksX,
        LocalRead.smGetAllTasksBody, LocalRead.parseOr] at ht
      exact hbne t (List.mem_filter.mp ht).2
  · have hd : ∀ e : DBState, e.isOnline = false →
        deleteTask e id true = deleteTaskFromLocalStorage e id := by
      intro e he
      simp [deleteTask, he]
    have h1 : deleteTask d id true = deleteTaskFromLocalStorage d id := hd d hoff
    have hoff1 : (deleteTaskFromLocalStorage d id).isOnline = false := by
      simp [deleteTaskFromLocalStorage, hoff]
    constructor
    · rw [h1, hd _ hoff1]
      simp only [deleteTaskFromLocalStorage, getTasksFromLocalStorage, Option.getD_some]
      rw [filter_idem]
    · intro t ht
      rw [h1, hd _ hoff1] at ht
      simp only [deleteTaskFromLocalStorage, getTasksFromLocalStorage,
        Option.getD_some] at ht
      exact hbne t (List.mem_filter.mp ht).2

/-- Witness for Claim C6 at a concrete input: state holding only
`taskT`, deleting its id twice. -/
theorem deleteTask_idempotent_witness :
    (SM.deleteTask (SM.deleteTask { slotTasks := .valid [taskT] } "t1").1 "t1").2 = true ∧
    ∀ t ∈ getTasksFromLocalStorage
        (deleteTask (deleteTask { offlineState with slotTasks := some [taskT] } "t1" true)
          "t1" true),
      t.id ≠ some "t1" := by
  have h := deleteTask_idempotent { slotTasks := .valid [taskT] }
    { offlineState with slotTasks := some [taskT] } "t1" rfl
  exact ⟨h.1.1, h.2.2⟩

/-- Claim C10: the localStorage fallback save assigns ids and
timestamps exactly as the source does — a record without an id is
stored and returned with the fresh id `temp_<Date.now()>` and with
`createdAt` and `updatedAt` set to the current time, appended to the
collection; a record with an id is returned unchanged and stored with
its id preserved (the first entry with the same id is replaced,
otherwise the record is appended), with `updatedAt` refreshed in the
stored copy. -/
theorem saveTaskToLocalStorage_id_semantics (s : DBState) (t : Task) :
    (t.id = none →
      (saveTaskToLocalStorage s t).2.id = some ("temp_" ++ toString s.now) ∧
      (saveTaskToLocalStorage s t).2.createdAt = some s.nowISO ∧
      (saveTaskToLocalStorage s t).2.updatedAt = some s.nowISO ∧
      (saveTaskToLocalStorage s t).2.title = t.title ∧
      (saveTaskToLocalStorage s t).1.slotTasks =
        some (getTasksFromLocalStorage s ++ [(saveTaskToLocalStorage s t).2])) ∧
    (∀ i, t.id = some i →
      (saveTaskToLocalStorage s t).2 = t ∧
      ((getTasksFromLocalStorage s).findIdx? (fun u => u.id == some i) = none →
        (saveTaskToLocalStorage s t).1.slotTasks =
          some (getTasksFromLocalStorage s ++ [{ t with updatedAt := some s.nowISO }])) ∧
      (∀ j, (getTasksFromLocalStorage s).findIdx? (fun u => u.id == some i) = some j →
        (saveTaskToLocalStorage s t).1.slotTasks =
          some ((getTasksFromLocalStorage s).set j { t with updatedAt := some s.nowISO }))) := by
  constructor
  · intro ht
    refine ⟨?_, ?_, ?_, ?_, ?_⟩ <;> simp [saveTaskToLocalStorage, ht]
  · intro i ht
    refine ⟨?_, ?_, ?_⟩
    · simp [saveTaskToLocalStorage, ht]
    · intro hidx
      simp [saveTaskToLocalStorage, ht, hidx]
    · intro j hidx
      simp [saveTaskToLocalStorage, ht, hidx]

/-- Witness for Claim C10 at concrete inputs: saving the id-less task
assigns the `temp_5` id and both timestamps; saving `taskT` (id `t1`)
into a slot already holding `taskT` replaces the first entry. -/
theorem saveTaskToLocalStorage_id_semantics_witness :
    (saveTaskToLocalStorage offlineState taskNoId).2.id =
      some ("temp_" ++ toString offlineState.now) ∧
    (saveTaskToLocalStorage offlineState taskNoId).2.createdAt =
      some offlineState.nowISO ∧
    (saveTaskToLocalStorage { offlineState with slotTasks := some [taskT] } taskT).1.slotTasks =
      some ([taskT].set 0 { taskT with updatedAt := some offlineState.nowISO }) := by
  have h1 := (saveTaskToLocalStorage_id_semantics offlineState taskNoId).1 rfl
  have h2 := ((saveTaskToLocalStorage_id_semantics
    { offlineState with slotTasks := some [taskT] } taskT).2 "t1" rfl).2.2 0 (by decide)
  exact ⟨h1.1, h1.2.1, h2⟩

/-- Claim C4: every embedded read method, of both storage managers,
returns `.ok` on every possible raw slot content — absent, well-formed,
or malformed — and on a malformed slot returns the empty collection or
the supplied default; the parse failure is raised inside the try-block
body (third conjunct) and caught at the deserialization boundary, so no
exception propagates past the public interface. -/
theorem reads_never_throw :
    (∀ slot : LocalRead.Slot (List Task), ∃ v, LocalRead.getTasksX slot = .ok v) ∧
    LocalRead.getTasksX .corrupt = .ok [] ∧
    (∃ e, LocalRead.getTasksBody .corrupt = .error e) ∧
    (∀ slot : LocalRead.Slot (List (String × String)),
      ∃ v, LocalRead.getSettingsX slot = .ok v) ∧
    LocalRead.getSettingsX .corrupt = .ok [] ∧
    (∀ slot key dflt, ∃ v, LocalRead.getSettingX slot key dflt = .ok v) ∧
    (∀ key dflt, LocalRead.getSettingX .corrupt key dflt = .ok dflt) ∧
    (∀ slot : LocalRead.Slot (List StatRecord),
      ∃ v, LocalRead.getStatisticsX slot = .ok v) ∧
    LocalRead.getStatisticsX .corrupt = .ok [] ∧
    (∀ slot : LocalRead.Slot (List Task), ∃ v, LocalRead.smGetAllTasksX slot = .ok v) ∧
    LocalRead.smGetAllTasksX .corrupt = .ok [] ∧
    (∀ slot id, ∃ v, LocalRead.smGetTaskX slot id = .ok v) ∧
    (∀ id, LocalRead.smGetTaskX .corrupt id = .ok none) ∧
    (∀ slot dflt, ∃ v, LocalRead.smGetSettingX slot dflt = .ok v) ∧
    (∀ dflt, LocalRead.smGetSettingX .corrupt dflt = .ok dflt) ∧
    (∀ slot : LocalRead.Slot (List StatRecord),
      ∃ v, LocalRead.smGetStatisticsX slot = .ok v) ∧
    LocalRead.smGetStatisticsX .corrupt = .ok [] := by
  refine ⟨?_, rfl, ⟨_, rfl⟩, ?_, rfl, ?_, ?_, ?_, rfl, ?_, rfl, ?_, ?_, ?_, ?_, ?_, rfl⟩
  · intro slot
    cases slot <;> exact ⟨_, rfl⟩
  · intro slot
    cases slot <;> exact ⟨_, rfl⟩
  · intro slot key dflt
    cases slot with
    | valid kv =>
      cases h : kv.lookup key <;>
        simp [LocalRead.getSettingX, LocalRead.getSettingsX, LocalRead.parseOr, h]
    | empty =>
      cases h : ([] : List (String × String)).lookup key <;>
        simp [LocalRead.getSettingX, LocalRead.getSettingsX, LocalRead.parseOr, h]
    | corrupt =>
      cases h : ([] : List (String × String)).lookup key <;>
        simp [LocalRead.getSettingX, LocalRead.getSettingsX, LocalRead.parseOr, h]
  · intro key dflt
    rfl
  · intro slot
    cases slot <;> exact ⟨_, rfl⟩
  · intro slot
    cases slot <;> exact ⟨_, rfl⟩
  · intro slot id
    cases slot <;> exact ⟨_, rfl⟩
  · intro id
    rfl
  · intro slot dflt
    cases slot <;> exact ⟨_, rfl⟩
  · intro dflt
    rfl
  · intro slot
    cases slot <;> exact ⟨_, rfl⟩

end PlannerPro
